import Mathlib

/-!
Verification of the query-resolution and geospatial-ranking pipeline of the
real_estate repository (src/app/main.py), via a shallow embedding.

Python machine reals (floats produced by `geopy.distance.geodesic`) are
modelled as rationals supplied by explicit oracle parameters; Python `int()`
truncation, `str.strip()`, `str.lower()` and substring containment (`in`)
are embedded directly.  The three regular expressions of
`regex_extract_address` are embedded through a small backtracking matcher
with Python `re.search` semantics (leftmost start, greedy quantifiers,
leftmost alternative first).
-/

/-- Python `int()` applied to a (real-valued) quantity: truncation toward
zero.  In `main.py` this appears as `int(geodesic(...).meters)` and
`int(distance_m / 80)`. -/
def pyInt (q : ℚ) : ℤ :=
  if 0 ≤ q then ⌊q⌋ else ⌈q⌉

/-- Python whitespace test (`str.strip` / regex `\s`), ASCII fragment. -/
def pyWs (c : Char) : Bool :=
  c = ' ' || c = '\t' || c = '\n' || c = '\r'

/-- Python `str.lower()` on the character lists underlying strings
(ASCII fragment). -/
def lowerStr (s : String) : String :=
  String.mk (s.toList.map Char.toLower)

/-- Python `str.strip()`: drop leading and trailing whitespace. -/
def pyStrip (s : String) : String :=
  String.mk (((s.toList.dropWhile pyWs).reverse.dropWhile pyWs).reverse)

/-- Does `hay` start with `sub`?  (Helper for Python substring `in`.) -/
def listStartsWith : List Char → List Char → Bool
  | _, [] => true
  | [], _ :: _ => false
  | h :: hs, n :: ns => h == n && listStartsWith hs ns

/-- Python substring containment `sub in hay` on character lists. -/
def listContains (sub : List Char) : List Char → Bool
  | [] => listStartsWith [] sub
  | c :: t => listStartsWith (c :: t) sub || listContains sub t

/-- Python `sub in hay` on strings. -/
def pyInStr (sub hay : String) : Bool :=
  listContains sub.toList hay.toList

/-- Python round-half-to-even (the rounding of `round(x, 4)` on exact
values), producing an integer. -/
def roundHalfEven (q : ℚ) : ℤ :=
  let f := ⌊q⌋
  let r := q - f
  if r < 1/2 then f
  else if 1/2 < r then f + 1
  else if f % 2 = 0 then f else f + 1

/-- Python `round(x, 4)` used for the displayed latitude/longitude. -/
def round4 (q : ℚ) : ℚ :=
  (roundHalfEven (q * 10000) : ℚ) / 10000

/-! ### A small regex engine with Python `re` semantics

Only the combinators needed by the three patterns of
`regex_extract_address` are provided.  Greedy quantifiers try the longest
repetition first and backtrack; alternation prefers the left alternative;
`reSearch` scans candidate start positions left to right, so the leftmost
match wins — exactly `re.search`. -/

/-- Regular-expression abstract syntax. `cls` is a character class, `plus`
and `star` are greedy `+`/`*` over a character class, `rep a n` is greedy
`{0,n}`, `wb` is the word boundary `\b`. -/
inductive RE where
  | eps : RE
  | cls (p : Char → Bool) : RE
  | seq (a b : RE) : RE
  | alt (a b : RE) : RE
  | opt (a : RE) : RE
  | plus (p : Char → Bool) : RE
  | star (p : Char → Bool) : RE
  | rep (a : RE) (n : Nat) : RE
  | wb : RE

/-- Python regex word character `\w` (ASCII fragment). -/
def wordChar (c : Char) : Bool :=
  c.isAlphanum || c = '_'

/-- Is the character at index `i` (if any) a word character? -/
def isWordAt (cs : List Char) (i : Nat) : Bool :=
  match cs.get? i with
  | some c => wordChar c
  | none => false

/-- Word boundary `\b` at position `pos`. -/
def wordBoundary (cs : List Char) (pos : Nat) : Bool :=
  let prev := if pos = 0 then false else isWordAt cs (pos - 1)
  xor prev (isWordAt cs pos)

/-- Length of the maximal run of characters satisfying `p` from `pos`. -/
def countRun (p : Char → Bool) (cs : List Char) (pos : Nat) : Nat :=
  ((cs.drop pos).takeWhile p).length

/-- Greedy backtracking over run lengths `j, j-1, ..., 1`. -/
def tryBack (k : Nat → Option Nat) (pos : Nat) : Nat → Option Nat
  | 0 => none
  | j + 1 => (k (pos + j + 1)).orElse (fun _ => tryBack k pos j)

/-- Greedy backtracking over run lengths `j, j-1, ..., 0`. -/
def tryBackIncl (k : Nat → Option Nat) (pos : Nat) : Nat → Option Nat
  | 0 => k pos
  | j + 1 => (k (pos + j + 1)).orElse (fun _ => tryBackIncl k pos j)

/-- Fueled CPS matcher: match `re` in `cs` starting at `pos`, passing the
end position to the continuation `k`.  Backtracking order follows Python
`re` (greedy, leftmost alternative first).  The fuel only bounds the
structural unfolding depth along one path; `1000` is far above what the
three fixed patterns below can consume. -/
def matchAt : Nat → RE → List Char → Nat → (Nat → Option Nat) → Option Nat
  | 0, _, _, _, _ => none
  | fuel + 1, re, cs, pos, k =>
    match re with
    | .eps => k pos
    | .cls p =>
      match cs.get? pos with
      | some c => if p c then k (pos + 1) else none
      | none => none
    | .seq a b => matchAt fuel a cs pos (fun p1 => matchAt fuel b cs p1 k)
    | .alt a b => (matchAt fuel a cs pos k).orElse (fun _ => matchAt fuel b cs pos k)
    | .opt a => (matchAt fuel a cs pos k).orElse (fun _ => k pos)
    | .plus p => tryBack k pos (countRun p cs pos)
    | .star p => tryBackIncl k pos (countRun p cs pos)
    | .rep a n =>
      match n with
      | 0 => k pos
      | n + 1 =>
        (matchAt fuel a cs pos (fun p1 => matchAt fuel (.rep a n) cs p1 k)).orElse
          (fun _ => k pos)
    | .wb => if wordBoundary cs pos then k pos else none

/-- Scan start positions left to right (`re.search`); on the first position
where the pattern matches, return the matched substring (group 0). -/
def searchAux (re : RE) (cs : List Char) : Nat → Nat → Option String
  | start, 0 =>
    match matchAt 1000 re cs start some with
    | some e => some (String.mk ((cs.drop start).take (e - start)))
    | none => none
  | start, rem + 1 =>
    match matchAt 1000 re cs start some with
    | some e => some (String.mk ((cs.drop start).take (e - start)))
    | none => searchAux re cs (start + 1) rem

/-- Python `re.search(pattern, s)`, returning `m.group(0)`. -/
def reSearch (re : RE) (s : String) : Option String :=
  searchAux re s.toList 0 s.toList.length

/-- Case-insensitive literal (the `re.IGNORECASE` flag of the source). -/
def litCI (s : String) : RE :=
  s.toList.foldr (fun ch r => .seq (.cls (fun c => c.toLower = ch.toLower)) r) .eps

/-- Left-leaning alternation of a list of alternatives, in source order. -/
def altList : List RE → RE
  | [] => .eps
  | [r] => r
  | r :: rs => .alt r (altList rs)

/-- ASCII digit class `\d`. -/
def reDigit : RE := .cls Char.isDigit

/-- The street-suffix alternation of the street pattern, in source order. -/
def streetSuffix : RE :=
  altList [litCI "St", litCI "Street", litCI "Avenue", litCI "Ave", litCI "Rd",
    litCI "Road", litCI "Blvd", litCI "Boulevard", litCI "Lane", litCI "Ln",
    litCI "Drive", litCI "Dr", litCI "Court", litCI "Ct", litCI "Way"]

/-- The part of the street pattern after the mandatory first digit:
`\d{0,4}\s+[A-Za-z0-9]+(?:\s[A-Za-z0-9]+){0,4}\b(?:\s(?:St|Street|...))?`. -/
def streetAfterDigit : RE :=
  .seq (.rep reDigit 4)
    (.seq (.plus pyWs)
      (.seq (.plus Char.isAlphanum)
        (.seq (.rep (.seq (.cls pyWs) (.plus Char.isAlphanum)) 4)
          (.seq .wb
            (.opt (.seq (.cls pyWs) streetSuffix))))))

/-- The `street_pattern` regex of `regex_extract_address`:
`\b\d{1,5}\s+[A-Za-z0-9]+(?:\s[A-Za-z0-9]+){0,4}\b(?:\s(?:St|Street|...))?`
(case-insensitive; `\d{1,5}` is one mandatory digit then greedy `{0,4}`). -/
def streetRE : RE :=
  .seq .wb (.seq reDigit streetAfterDigit)

/-- First letters valid in a Canadian postal code (case-insensitive). -/
def postalFirst (c : Char) : Bool :=
  "ABCEGHJKLMNPRSTVXY".toList.contains c.toUpper

/-- Later letters valid in a Canadian postal code (case-insensitive). -/
def postalLetter (c : Char) : Bool :=
  "ABCEGHJKLMNPRSTVWXYZ".toList.contains c.toUpper

/-- The `postal_pattern` regex:
`\b[ABCEGHJKLMNPRSTVXY]\d[ABCEGHJKLMNPRSTVWXYZ][ -]?\d[ABCEGHJKLMNPRSTVWXYZ]\d\b`
(case-insensitive). -/
def postalRE : RE :=
  .seq .wb
    (.seq (.cls postalFirst)
      (.seq reDigit
        (.seq (.cls postalLetter)
          (.seq (.opt (.cls (fun c => c = ' ' || c = '-')))
            (.seq reDigit
              (.seq (.cls postalLetter)
                (.seq reDigit .wb)))))))

/-- The `intersection_pattern` regex:
`\b([A-Za-z0-9]+)\s*&\s*([A-Za-z0-9]+)\b`. -/
def intersectionRE : RE :=
  .seq .wb
    (.seq (.plus Char.isAlphanum)
      (.seq (.star pyWs)
        (.seq (.cls (fun c => c = '&'))
          (.seq (.star pyWs)
            (.seq (.plus Char.isAlphanum) .wb)))))

/-- The fixed gazetteer `BC_CITIES` of `main.py`, in source order. -/
def BC_CITIES : List String :=
  ["Vancouver", "West Vancouver", "North Vancouver", "Burnaby",
   "Richmond", "Surrey", "Coquitlam", "Delta", "Langley"]

/-- Stage 1 of `regex_extract_address`: `street_pattern.search(query)`. -/
def streetSearch (q : String) : Option String := reSearch streetRE q

/-- Stage 2 of `regex_extract_address`: `postal_pattern.search(query)`. -/
def postalSearch (q : String) : Option String := reSearch postalRE q

/-- Stage 3 of `regex_extract_address`: the first city of `BC_CITIES`
with `city.lower() in query.lower()`. -/
def findCity (q : String) : Option String :=
  BC_CITIES.find? (fun city => pyInStr (lowerStr city) (lowerStr q))

/-- Stage 4 of `regex_extract_address`: `intersection_pattern.search(query)`. -/
def intersectionSearch (q : String) : Option String := reSearch intersectionRE q

/-- `regex_extract_address` of `main.py`: the ordered, short-circuiting
regex/gazetteer chain, returning `""` when no stage matches. -/
def regex_extract_address (q : String) : String :=
  match streetSearch q with
  | some m => m
  | none =>
    match postalSearch q with
    | some m => m
    | none =>
      match findCity q with
      | some city => city
      | none =>
        match intersectionSearch q with
        | some m => m
        | none => ""

/-- `extract_address_from_query` of `main.py`: the regex chain first; only
when it yields a falsy (empty) string is the LLM collaborator (`llm`)
consulted, whose response is stripped (`llm_extract_address`). -/
def extract_address_from_query (llm : String → String) (q : String) : String :=
  let address := regex_extract_address q
  if address ≠ "" then address
  else pyStrip (llm q)

/-! ### Places, candidate aggregation (`filter_places`) -/

/-- A raw place-search result as consumed by `filter_places`:
`place['name']`, `place.get('types', [])`,
`place['geometry']['location']['lat'/'lng']`, `place.get('vicinity')`. -/
structure Place where
  name : String
  types : List String
  lat : ℚ
  lng : ℚ
  vicinity : Option String
deriving DecidableEq

/-- An output entry of `filter_places` (the dict built in its loop; the
`rank` key is attached after sorting/truncation, so it is `0` until then). -/
structure RankedPlace where
  name : String
  type : String
  address : String
  latitude : ℚ
  longitude : ℚ
  distance_m : ℤ
  walking_time_min : ℤ
  maps_url : String
  rank : ℤ
deriving DecidableEq

/-- The walking-time computation `int(distance_m / 80)` of `filter_places`
(line 458 of `main.py`), as a function of the integer distance. -/
def walking_minutes (d : ℤ) : ℤ :=
  pyInt ((d : ℚ) / 80)

/-- The dict built for one surviving candidate in the loop of
`filter_places`.  `geo` is the geodesic-meters oracle standing for
`geodesic((lat, lng), (place_lat, place_lng)).meters`. -/
def mkEntry (geo : ℚ × ℚ → ℚ × ℚ → ℚ) (lat lng : ℚ) (p : Place) : RankedPlace :=
  let distance_m := pyInt (geo (lat, lng) (p.lat, p.lng))
  { name := p.name
    type := if p.types.contains "community_center" then "community_centre" else "park"
    address :=
      match p.vicinity with
      | some v => if v = "" then "No address available" else v
      | none => "No address available"
    latitude := round4 p.lat
    longitude := round4 p.lng
    distance_m := distance_m
    walking_time_min := walking_minutes distance_m
    maps_url := "https://maps.google.com/?q=" ++ toString p.lat ++ "," ++ toString p.lng
    rank := 0 }

/-- The category test of `filter_places`:
`any(t in allowed_types for t in place.get('types', []))`. -/
def typeAllowed (allowed : List String) (p : Place) : Bool :=
  p.types.any (fun t => allowed.contains t)

/-- The accumulation loop of `filter_places`: category filter, then
first-wins dedup on `place['name']` via the `seen` set. -/
def filterLoop (geo : ℚ × ℚ → ℚ × ℚ → ℚ) (lat lng : ℚ) (allowed : List String) :
    List Place → List String → List RankedPlace
  | [], _ => []
  | p :: rest, seen =>
    if typeAllowed allowed p then
      if seen.contains p.name then filterLoop geo lat lng allowed rest seen
      else mkEntry geo lat lng p :: filterLoop geo lat lng allowed rest (p.name :: seen)
    else filterLoop geo lat lng allowed rest seen

/-- The filtered, deduplicated entries of `filter_places` before sorting. -/
def filteredEntries (geo : ℚ × ℚ → ℚ × ℚ → ℚ) (places : List Place)
    (lat lng : ℚ) (allowed : List String) : List RankedPlace :=
  filterLoop geo lat lng allowed places []

/-- `filtered.sort(key=lambda x: x['distance_m'])`: Python `list.sort` is
stable; a stable sort is modelled by insertion sort on `≤` of
`distance_m`. -/
def sortByDist (l : List RankedPlace) : List RankedPlace :=
  l.insertionSort (fun a b => a.distance_m ≤ b.distance_m)

/-- The final rank assignment of `filter_places`:
`for i, place in enumerate(filtered): place['rank'] = i + 1`. -/
def assignRanks (l : List RankedPlace) : List RankedPlace :=
  l.enum.map (fun ip => { ip.2 with rank := (ip.1 : ℤ) + 1 })

/-- `filter_places` of `main.py`: category filter, first-wins name dedup,
distance/walking-time computation, stable sort by `distance_m`,
truncation to 5, rank assignment. -/
def filter_places (geo : ℚ × ℚ → ℚ × ℚ → ℚ) (places : List Place)
    (lat lng : ℚ) (allowed : List String) : List RankedPlace :=
  assignRanks ((sortByDist (filteredEntries geo places lat lng allowed)).take 5)

/-! ### Nearest school (`find_closest_school`) -/

/-- A Vancouver open-data school record as consumed by
`find_closest_school` and `get_school_catchment`. -/
structure SchoolRecord where
  school_name : String
  school_category : String
  address : String
  geo_local_area : String
  geo_lat : ℚ
  geo_lon : ℚ
deriving DecidableEq

/-- The loop of `find_closest_school`: `min_distance` starts at
`float('inf')` (modelled by the accumulator `none`) and a record strictly
closer than the current minimum replaces it. `geoKm` stands for
`geodesic((lat, lng), (school_lat, school_lon)).kilometers`. -/
def fcsLoop (geoKm : ℚ × ℚ → ℚ × ℚ → ℚ) (lat lng : ℚ) :
    List SchoolRecord → Option (ℚ × SchoolRecord) → Option (ℚ × SchoolRecord)
  | [], acc => acc
  | s :: rest, acc =>
    let d := geoKm (lat, lng) (s.geo_lat, s.geo_lon)
    match acc with
    | none => fcsLoop geoKm lat lng rest (some (d, s))
    | some (m, c) =>
      if d < m then fcsLoop geoKm lat lng rest (some (d, s))
      else fcsLoop geoKm lat lng rest (some (m, c))

/-- `find_closest_school` of `main.py`. -/
def find_closest_school (geoKm : ℚ × ℚ → ℚ × ℚ → ℚ) (lat lng : ℚ)
    (schools : List SchoolRecord) : Option SchoolRecord :=
  (fcsLoop geoKm lat lng schools none).map (fun p => p.2)

/-! ### The router (`determine_api_action`) and the endpoints it dispatches to

External collaborators (LLM, geocoding, place search, open data) are
oracle functions bundled in `Externals`; endpoints raise `HTTPException` on
failure, modelled by `Except String`; `determine_api_action` catches every
exception and returns `{"error": str(e)}`, where `str` of a FastAPI
`HTTPException` is `"<status>: <detail>"`. -/

/-- The first geocoding result (`get_geocoding_data`): the fields of it
that the endpoints read. -/
structure Geocoded where
  place_id : String
  formatted_address : String
  lat : ℚ
  lng : ℚ
deriving DecidableEq

/-- A nearby-search result of which only `name`/`vicinity` are read
(schools and transit endpoints). -/
structure NamedPlace where
  name : String
  vicinity : Option String
deriving DecidableEq

/-- The external collaborators of the pipeline, as oracles. -/
structure Externals where
  classify : String → String
  llmAddr : String → String
  geocode : String → Option Geocoded
  placeDetails : String → Option Unit
  nearbySchools : ℚ → ℚ → List NamedPlace
  nearbyTransit : ℚ → ℚ → List NamedPlace
  catchmentRecords : Option (List SchoolRecord)
  parksSearch : ℚ → ℚ → List Place
  centresSearch : ℚ → ℚ → List Place
  geoM : ℚ × ℚ → ℚ × ℚ → ℚ
  geoKm : ℚ × ℚ → ℚ × ℚ → ℚ

/-- The response payloads produced by `determine_api_action` and the
endpoints it dispatches to (restricted to the fields the pipeline
computes). -/
inductive Envelope where
  | assessment (formatted : String) (lat lng : ℚ) : Envelope
  | schools (data : List (String × Option String)) : Envelope
  | catchment (found : Option (String × String × String × String)) : Envelope
  | transit (names : List String) : Envelope
  | parksCentres (address : String) (parks centres : List RankedPlace) : Envelope
  | unsupported (query action address : String) : Envelope
  | errorMsg (msg : String) : Envelope
deriving DecidableEq

/-- `/assessment` (`get_bc_assessment`): geocode, then place details; any
failure raises the 404 `HTTPException`. -/
def get_bc_assessment (ext : Externals) (address : String) : Except String Envelope :=
  match ext.geocode address with
  | some g =>
    match ext.placeDetails g.place_id with
    | some _ => .ok (.assessment g.formatted_address g.lat g.lng)
    | none => .error "404: Unable to retrieve BC Assessment value."
  | none => .error "404: Unable to retrieve BC Assessment value."

/-- `/nearby-schools` (`nearby_schools`): geocode, then nearby search,
shaping `name`/`vicinity` pairs. -/
def nearby_schools (ext : Externals) (address : String) : Except String Envelope :=
  match ext.geocode address with
  | some g =>
    .ok (.schools ((ext.nearbySchools g.lat g.lng).map (fun s => (s.name, s.vicinity))))
  | none => .error "404: Unable to retrieve nearby schools."

/-- `get_school_catchment`: fetch the open-data records and run
`find_closest_school`; `none` stands for the string
`"No nearby school catchment found."` returned when the fetch fails or
the record list is empty. -/
def get_school_catchment (ext : Externals) (lat lng : ℚ) :
    Option (String × String × String × String) :=
  match ext.catchmentRecords with
  | some records =>
    match find_closest_school ext.geoKm lat lng records with
    | some s => some (s.school_name, s.school_category, s.address, s.geo_local_area)
    | none => none
  | none => none

/-- `/school-catchment` (`school_catchment`). -/
def school_catchment (ext : Externals) (address : String) : Except String Envelope :=
  match ext.geocode address with
  | some g => .ok (.catchment (get_school_catchment ext g.lat g.lng))
  | none => .error "404: Unable to retrieve school catchment."

/-- `/nearest-transit` (`nearest_transit`). -/
def nearest_transit (ext : Externals) (address : String) : Except String Envelope :=
  match ext.geocode address with
  | some g => .ok (.transit ((ext.nearbyTransit g.lat g.lng).map (fun s => s.name)))
  | none => .error "404: Unable to retrieve transit stations."

/-- `/nearby-parks-and-centres` (`nearby_parks_and_centres`): two
independent candidate fetches, each run through `filter_places` with its
own allowed-category set. -/
def nearby_parks_and_centres (ext : Externals) (address : String) : Except String Envelope :=
  match ext.geocode address with
  | some g =>
    let parks := filter_places ext.geoM (ext.parksSearch g.lat g.lng) g.lat g.lng
      ["park", "playground", "trail", "dog_park"]
    let centres := filter_places ext.geoM (ext.centresSearch g.lat g.lng) g.lat g.lng
      ["community_center", "recreation_center"]
    .ok (.parksCentres address parks centres)
  | none => .error "404: Unable to retrieve nearby parks and community centres."

/-- `determine_api_action` of `main.py`: the LLM response is stripped and
lower-cased into `action`, the address is extracted (regex chain, then
LLM), and the query is dispatched on `action`; there is no empty-address
check, and every `HTTPException` raised downstream is caught by the
surrounding `try`/`except`, producing the `{"error": ...}` payload. -/
def determine_api_action (ext : Externals) (q : String) : Envelope :=
  let action := lowerStr (pyStrip (ext.classify q))
  let address := extract_address_from_query ext.llmAddr q
  let routed : Except String Envelope :=
    if action = "schools" then nearby_schools ext address
    else if action = "school_catchment" then school_catchment ext address
    else if action = "transit" then nearest_transit ext address
    else if action = "parks" then nearby_parks_and_centres ext address
    else if action = "assessment" then get_bc_assessment ext address
    else .ok (.unsupported q action address)
  match routed with
  | .ok e => e
  | .error msg => .errorMsg msg

/-- Modelled from the spec: the spec's `GeoMath.distance_meters` words,
"great-circle distance, rounded to nearest integer meter" — rounding to
the nearest integer, to be compared with the source's `int()`
truncation. -/
def specRoundNearest (q : ℚ) : ℤ :=
  round q

/-- The geodesic-kilometers distance from the query point to a school
record, as computed inside the loop of `find_closest_school`. -/
def sDist (geoKm : ℚ × ℚ → ℚ × ℚ → ℚ) (lat lng : ℚ) (s : SchoolRecord) : ℚ :=
  geoKm (lat, lng) (s.geo_lat, s.geo_lon)

/-- The minimum of the loop distances over `h :: t`. -/
def minDistFrom (geoKm : ℚ × ℚ → ℚ × ℚ → ℚ) (lat lng : ℚ)
    (h : SchoolRecord) (t : List SchoolRecord) : ℚ :=
  (t.map (sDist geoKm lat lng)).foldl min (sDist geoKm lat lng h)

/-! ### Concrete inputs used to exercise the theorems -/

/-- A distance oracle that reports the candidate's latitude as its
distance (both in meters and kilometers roles). -/
def latGeo : ℚ × ℚ → ℚ × ℚ → ℚ := fun _ pq => pq.1

/-- A constant non-negative distance oracle. -/
def constGeo : ℚ × ℚ → ℚ × ℚ → ℚ := fun _ _ => 2

/-- Two park candidates out of sort order by distance (under `latGeo`). -/
def parkFar : Place := ⟨"Oak Park", ["park"], 10, 0, some "800 Oak St"⟩

/-- The nearer of the two distinct-name candidates. -/
def parkNear : Place := ⟨"Elm Green", ["park"], 5, 0, none⟩

/-- A candidate sharing its name with `parkFar` but closer (under `latGeo`). -/
def parkDupNear : Place := ⟨"Oak Park", ["park"], 3, 0, some "802 Oak St"⟩

/-- The first entry of the deduplication example. -/
def dedupFirstEntry : RankedPlace :=
  (filter_places latGeo [parkFar, parkDupNear] 0 0 ["park"]).get ⟨0, by decide⟩

/-- A candidate that passes a parks-only category filter but carries
`community_center` among its types. -/
def mixedTypesPlace : Place := ⟨"Hillcrest Centre", ["park", "community_center"], 0, 0, none⟩

/-- The single entry of the mixed-types example. -/
def mixedTypesEntry : RankedPlace :=
  (filter_places constGeo [mixedTypesPlace] 0 0 ["park"]).get ⟨0, by decide⟩

/-- A candidate whose (oracle) geodesic distance is fractional. -/
def fracDistPlace : Place := ⟨"Trout Lake", ["park"], 1, 1, none⟩

/-- The entry produced by `filter_places` under the fractional oracle. -/
def fracDistEntry : RankedPlace :=
  (filter_places (fun _ _ => (1009 : ℚ) / 10) [fracDistPlace] 0 0 ["park"]).get ⟨0, by decide⟩

/-- Two school records whose `latGeo` distances are 7 and 3. -/
def schoolA : SchoolRecord := ⟨"A Elementary", "Public", "1 First St", "Area A", 7, 0⟩

/-- The nearer school record. -/
def schoolB : SchoolRecord := ⟨"B Secondary", "Public", "2 Second St", "Area B", 3, 0⟩

/-- External collaborators for routing a query whose extraction fails:
the intent LLM answers `schools`, the address LLM answers the empty
string, and geocoding finds nothing. -/
def extractionFailExt : Externals :=
  { classify := fun _ => "schools"
    llmAddr := fun _ => ""
    geocode := fun _ => none
    placeDetails := fun _ => none
    nearbySchools := fun _ _ => []
    nearbyTransit := fun _ _ => []
    catchmentRecords := none
    parksSearch := fun _ _ => []
    centresSearch := fun _ _ => []
    geoM := fun _ _ => 0
    geoKm := fun _ _ => 0 }

/-- The same collaborators, except geocoding succeeds (even on the empty
address) and the place search returns one school: used to show the
router's output depends on the geocoding collaborator's answer at the
empty address. -/
def extractionFailExtGeoOk : Externals :=
  { extractionFailExt with
    geocode := fun _ => some ⟨"pid", "Formatted", 49, -123⟩
    nearbySchools := fun _ _ => [⟨"Main Street Elementary", some "123 Main St"⟩] }

/-! ### Helper lemmas about the aggregation pipeline -/

theorem assignRanks_length (l : List RankedPlace) : (assignRanks l).length = l.length := by
  simp [assignRanks]

theorem assignRanks_get (l : List RankedPlace) (i : Nat)
    (h : i < (assignRanks l).length) (h' : i < l.length) :
    (assignRanks l).get ⟨i, h⟩ = { l.get ⟨i, h'⟩ with rank := (i : ℤ) + 1 } := by
  simp [assignRanks, List.get_eq_getElem, List.getElem_map, List.getElem_enum]

theorem assignRanks_map_field {β : Type} (f : RankedPlace → β)
    (hf : ∀ p r, f { p with rank := r } = f p) (l : List RankedPlace) :
    (assignRanks l).map f = l.map f := by
  unfold assignRanks
  rw [List.map_map]
  have hcomp : (f ∘ fun ip : ℕ × RankedPlace => { ip.2 with rank := (ip.1 : ℤ) + 1 })
      = f ∘ Prod.snd := by
    funext ip
    exact hf ip.2 _
  rw [hcomp, ← List.map_map, List.enum_map_snd]

theorem assignRanks_map_rank (l : List RankedPlace) :
    (assignRanks l).map (fun e => e.rank) = (List.range l.length).map (fun i : ℕ => (i : ℤ) + 1) := by
  unfold assignRanks
  rw [List.map_map]
  have hcomp : ((fun e : RankedPlace => e.rank) ∘
        fun ip : ℕ × RankedPlace => { ip.2 with rank := (ip.1 : ℤ) + 1 })
      = (fun i : ℕ => (i : ℤ) + 1) ∘ Prod.fst := by
    funext ip
    rfl
  rw [hcomp, ← List.map_map, List.enum_map_fst]

theorem mem_assignRanks {e : RankedPlace} {l : List RankedPlace}
    (he : e ∈ assignRanks l) : ∃ p, p ∈ l ∧ ∃ i : ℕ, e = { p with rank := (i : ℤ) + 1 } := by
  obtain ⟨⟨i, p⟩, hmem, heq⟩ := List.mem_map.mp he
  refine ⟨p, ?_, i, heq.symm⟩
  have hsnd : (i, p).2 ∈ l.enum.map Prod.snd := List.mem_map_of_mem Prod.snd hmem
  rwa [List.enum_map_snd] at hsnd

instance : IsTotal RankedPlace (fun a b => a.distance_m ≤ b.distance_m) :=
  ⟨fun a b => le_total a.distance_m b.distance_m⟩

instance : IsTrans RankedPlace (fun a b => a.distance_m ≤ b.distance_m) :=
  ⟨fun _ _ _ h h' => le_trans h h'⟩

theorem sortByDist_sorted (l : List RankedPlace) :
    List.Sorted (fun a b => a.distance_m ≤ b.distance_m) (sortByDist l) :=
  List.sorted_insertionSort _ l

theorem sortByDist_perm (l : List RankedPlace) : List.Perm (sortByDist l) l :=
  List.perm_insertionSort _ l

theorem orderedInsert_filter_pos (x : RankedPlace) (d : ℤ) (hx : x.distance_m = d) :
    ∀ l : List RankedPlace,
      (List.orderedInsert (fun a b => a.distance_m ≤ b.distance_m) x l).filter
          (fun p => p.distance_m == d)
        = x :: l.filter (fun p => p.distance_m == d)
  | [] => by
    subst hx
    simp [List.orderedInsert, List.filter_cons]
  | y :: ys => by
    subst hx
    by_cases hle : x.distance_m ≤ y.distance_m
    · simp [List.orderedInsert, if_pos hle, List.filter_cons]
    · have hyne : ¬ (y.distance_m == x.distance_m) = true := by
        simp only [beq_iff_eq]
        omega
      simp only [List.orderedInsert, if_neg hle, List.filter_cons, hyne, if_neg,
        Bool.false_eq_true]
      rw [orderedInsert_filter_pos x x.distance_m rfl ys]
      simp

theorem orderedInsert_filter_neg (x : RankedPlace) (d : ℤ) (hx : ¬ x.distance_m = d) :
    ∀ l : List RankedPlace,
      (List.orderedInsert (fun a b => a.distance_m ≤ b.distance_m) x l).filter
          (fun p => p.distance_m == d)
        = l.filter (fun p => p.distance_m == d)
  | [] => by
    simp [List.orderedInsert, List.filter_cons, beq_iff_eq, hx]
  | y :: ys => by
    by_cases hle : x.distance_m ≤ y.distance_m
    · simp [List.orderedInsert, if_pos hle, List.filter_cons, beq_iff_eq, hx]
    · simp only [List.orderedInsert, if_neg hle, List.filter_cons]
      rw [orderedInsert_filter_neg x d hx ys]

theorem sortByDist_filter_eq (d : ℤ) :
    ∀ l : List RankedPlace,
      (sortByDist l).filter (fun p => p.distance_m == d)
        = l.filter (fun p => p.distance_m == d)
  | [] => rfl
  | x :: xs => by
    show (List.orderedInsert _ x (sortByDist xs)).filter _ = _
    by_cases hx : x.distance_m = d
    · rw [orderedInsert_filter_pos x d hx, sortByDist_filter_eq d xs]
      simp [List.filter_cons, hx]
    · rw [orderedInsert_filter_neg x d hx, sortByDist_filter_eq d xs]
      simp [List.filter_cons, beq_iff_eq, hx]

theorem filterLoop_names (geo : ℚ × ℚ → ℚ × ℚ → ℚ) (lat lng : ℚ) (allowed : List String) :
    ∀ (places : List Place) (seen : List String),
      ((filterLoop geo lat lng allowed places seen).map (fun e => e.name)).Nodup ∧
      ∀ e ∈ filterLoop geo lat lng allowed places seen, seen.contains e.name = false
  | [], _ => by
    constructor
    · exact List.nodup_nil
    · intro e he
      cases he
  | p :: rest, seen => by
    by_cases ha : typeAllowed allowed p = true
    · by_cases hs : seen.contains p.name = true
      · rw [filterLoop, if_pos ha, if_pos hs]
        exact filterLoop_names geo lat lng allowed rest seen
      · have ih := filterLoop_names geo lat lng allowed rest (p.name :: seen)
        rw [filterLoop, if_pos ha, if_neg hs]
        constructor
        · rw [List.map_cons, List.nodup_cons]
          refine ⟨?_, ih.1⟩
          intro hmem
          obtain ⟨e, he, hname⟩ := List.mem_map.mp hmem
          have hcontains := ih.2 e he
          rw [List.contains_cons] at hcontains
          rw [Bool.or_eq_false_iff] at hcontains
          rw [beq_eq_false_iff_ne] at hcontains
          exact hcontains.1 (by rw [hname]; rfl)
        · intro e he
          rcases List.mem_cons.mp he with rfl | hmem
          · show seen.contains p.name = false
            exact Bool.eq_false_iff.mpr hs
          · have hcontains := ih.2 e hmem
            rw [List.contains_cons] at hcontains
            rw [Bool.or_eq_false_iff] at hcontains
            exact hcontains.2
    · rw [filterLoop, if_neg ha]
      exact filterLoop_names geo lat lng allowed rest seen

theorem filterLoop_mem_spec (geo : ℚ × ℚ → ℚ × ℚ → ℚ) (lat lng : ℚ) (allowed : List String) :
    ∀ (places : List Place) (seen : List String) (e : RankedPlace),
      e ∈ filterLoop geo lat lng allowed places seen →
      seen.contains e.name = false ∧
      ∃ p, (places.filter (typeAllowed allowed)).find? (fun c => c.name == e.name) = some p ∧
        e = mkEntry geo lat lng p
  | [], _, e => by
    intro he
    cases he
  | c :: rest, seen, e => by
    intro he
    by_cases ha : typeAllowed allowed c = true
    · rw [List.filter_cons_of_pos ha]
      by_cases hs : seen.contains c.name = true
      · rw [filterLoop, if_pos ha, if_pos hs] at he
        obtain ⟨hseen, p, hfind, hp⟩ := filterLoop_mem_spec geo lat lng allowed rest seen e he
        have hne : ¬ ((fun cc : Place => cc.name == e.name) c) = true := by
          simp only [beq_iff_eq]
          intro heq
          rw [heq, hseen] at hs
          exact absurd hs (by decide)
        have hstep : List.find? (fun cc : Place => cc.name == e.name)
            (c :: rest.filter (typeAllowed allowed))
            = List.find? (fun cc : Place => cc.name == e.name)
              (rest.filter (typeAllowed allowed)) := List.find?_cons_of_neg _ hne
        exact ⟨hseen, p, by rw [hstep]; exact hfind, hp⟩
      · rw [filterLoop, if_pos ha, if_neg hs] at he
        rcases List.mem_cons.mp he with rfl | hmem
        · refine ⟨Bool.eq_false_iff.mpr hs, c, ?_, rfl⟩
          have hpos : ((fun cc : Place => cc.name == (mkEntry geo lat lng c).name) c) = true := by
            show (c.name == (mkEntry geo lat lng c).name) = true
            exact beq_iff_eq.mpr rfl
          exact List.find?_cons_of_pos _ hpos
        · obtain ⟨hseen, p, hfind, hp⟩ :=
            filterLoop_mem_spec geo lat lng allowed rest (c.name :: seen) e hmem
          rw [List.contains_cons] at hseen
          rw [Bool.or_eq_false_iff] at hseen
          have hne : ¬ ((fun cc : Place => cc.name == e.name) c) = true := by
            simp only [beq_iff_eq]
            intro heq
            rw [beq_eq_false_iff_ne] at hseen
            exact hseen.1 heq.symm
          have hstep : List.find? (fun cc : Place => cc.name == e.name)
              (c :: rest.filter (typeAllowed allowed))
              = List.find? (fun cc : Place => cc.name == e.name)
                (rest.filter (typeAllowed allowed)) := List.find?_cons_of_neg _ hne
          exact ⟨hseen.2, p, by rw [hstep]; exact hfind, hp⟩
    · rw [List.filter_cons_of_neg ha]
      rw [filterLoop, if_neg ha] at he
      exact filterLoop_mem_spec geo lat lng allowed rest seen e he

theorem mem_filter_places {geo : ℚ × ℚ → ℚ × ℚ → ℚ} {places : List Place}
    {lat lng : ℚ} {allowed : List String} {e : RankedPlace}
    (he : e ∈ filter_places geo places lat lng allowed) :
    ∃ p, (places.filter (typeAllowed allowed)).find? (fun c => c.name == e.name) = some p ∧
      e = { mkEntry geo lat lng p with rank := e.rank } := by
  obtain ⟨p', hp', i, hei⟩ := mem_assignRanks he
  have hsorted : p' ∈ sortByDist (filteredEntries geo places lat lng allowed) :=
    List.mem_of_mem_take hp'
  have hfl : p' ∈ filteredEntries geo places lat lng allowed :=
    (sortByDist_perm _).mem_iff.mp hsorted
  obtain ⟨-, p, hfind, hp⟩ :=
    filterLoop_mem_spec geo lat lng allowed places [] p' hfl
  have hname : e.name = p'.name := by rw [hei]
  have hrank : e.rank = (i : ℤ) + 1 := by rw [hei]
  refine ⟨p, by rwa [hname], ?_⟩
  rw [hrank, hei, hp]

theorem filter_places_pairwise_dist (geo : ℚ × ℚ → ℚ × ℚ → ℚ) (places : List Place)
    (lat lng : ℚ) (allowed : List String) :
    (filter_places geo places lat lng allowed).Pairwise
      (fun a b => a.distance_m ≤ b.distance_m) := by
  have htake : ((sortByDist (filteredEntries geo places lat lng allowed)).take 5).Pairwise
      (fun a b : RankedPlace => a.distance_m ≤ b.distance_m) :=
    List.Pairwise.sublist (List.take_sublist 5 _) (sortByDist_sorted _)
  show (assignRanks ((sortByDist (filteredEntries geo places lat lng allowed)).take 5)).Pairwise _
  unfold assignRanks
  rw [List.pairwise_map]
  have h3 : ((((sortByDist (filteredEntries geo places lat lng allowed)).take 5).enum.map
      Prod.snd).Pairwise (fun a b : RankedPlace => a.distance_m ≤ b.distance_m)) := by
    rw [List.enum_map_snd]
    exact htake
  rw [List.pairwise_map] at h3
  exact h3

/-! ### Substring containment lemmas -/

theorem listStartsWith_iff : ∀ (hay sub : List Char),
    listStartsWith hay sub = true ↔ ∃ t, hay = sub ++ t
  | hay, [] => by
    simp [listStartsWith]
  | [], n :: ns => by
    simp [listStartsWith]
  | h :: hs, n :: ns => by
    simp only [listStartsWith, Bool.and_eq_true, beq_iff_eq]
    constructor
    · rintro ⟨rfl, hrest⟩
      obtain ⟨t, rfl⟩ := (listStartsWith_iff hs ns).mp hrest
      exact ⟨t, rfl⟩
    · rintro ⟨t, heq⟩
      injection heq with h1 h2
      exact ⟨h1, (listStartsWith_iff hs ns).mpr ⟨t, h2⟩⟩

theorem listContains_iff : ∀ (sub hay : List Char),
    listContains sub hay = true ↔ ∃ s t, hay = s ++ sub ++ t
  | sub, [] => by
    rw [listContains, listStartsWith_iff]
    constructor
    · rintro ⟨t, ht⟩
      exact ⟨[], t, by simpa using ht⟩
    · rintro ⟨s, t, ht⟩
      obtain ⟨h1, rfl⟩ := List.append_eq_nil.mp ht.symm
      obtain ⟨rfl, rfl⟩ := List.append_eq_nil.mp h1
      exact ⟨[], rfl⟩
  | sub, c :: t => by
    rw [listContains, Bool.or_eq_true]
    constructor
    · rintro (hstart | hrec)
      · obtain ⟨u, hu⟩ := (listStartsWith_iff (c :: t) sub).mp hstart
        exact ⟨[], u, by simpa using hu⟩
      · obtain ⟨s, u, hu⟩ := (listContains_iff sub t).mp hrec
        exact ⟨c :: s, u, by simp [hu]⟩
    · rintro ⟨s, u, hu⟩
      match s, hu with
      | [], hu =>
        exact Or.inl ((listStartsWith_iff (c :: t) sub).mpr ⟨u, by simpa using hu⟩)
      | c' :: s', hu =>
        injection hu with h1 h2
        exact Or.inr ((listContains_iff sub t).mpr ⟨s', u, h2⟩)

theorem listContains_of_append (a b hay : List Char)
    (h : listContains (a ++ b) hay = true) : listContains b hay = true := by
  obtain ⟨s, t, ht⟩ := (listContains_iff (a ++ b) hay).mp h
  exact (listContains_iff b hay).mpr ⟨s ++ a, t, by simp [ht, List.append_assoc]⟩

/-! ### Arithmetic lemmas about `pyInt` and `walking_minutes` -/

theorem pyInt_of_nonneg (q : ℚ) (h : 0 ≤ q) : pyInt q = ⌊q⌋ :=
  if_pos h

theorem pyInt_nonneg (q : ℚ) (h : 0 ≤ q) : 0 ≤ pyInt q := by
  rw [pyInt_of_nonneg q h]
  exact Int.floor_nonneg.mpr h

theorem walking_minutes_eq_div (d : ℤ) (hd : 0 ≤ d) : walking_minutes d = d / 80 := by
  unfold walking_minutes
  rw [pyInt_of_nonneg _ (div_nonneg (by exact_mod_cast hd) (by norm_num))]
  have h80 : ((80 : ℚ)) = ((80 : ℕ) : ℚ) := by norm_num
  rw [h80, Rat.floor_intCast_div_natCast]
  norm_num

/-! ### Lemmas about `find_closest_school` -/

theorem foldl_min_le_init : ∀ (l : List ℚ) (a : ℚ), l.foldl min a ≤ a
  | [], a => le_refl a
  | x :: l, a => le_trans (foldl_min_le_init l (min a x)) (min_le_left a x)

theorem fcsLoop_isSome (geoKm : ℚ × ℚ → ℚ × ℚ → ℚ) (lat lng : ℚ) :
    ∀ (l : List SchoolRecord) (a : ℚ × SchoolRecord),
      ∃ r, fcsLoop geoKm lat lng l (some a) = some r
  | [], a => ⟨a, rfl⟩
  | s :: rest, a => by
    rcases a with ⟨m, c⟩
    rw [fcsLoop]
    by_cases hlt : geoKm (lat, lng) (s.geo_lat, s.geo_lon) < m
    · rw [if_pos hlt]
      exact fcsLoop_isSome geoKm lat lng rest _
    · rw [if_neg hlt]
      exact fcsLoop_isSome geoKm lat lng rest _

theorem find_closest_school_cons (geoKm : ℚ × ℚ → ℚ × ℚ → ℚ) (lat lng : ℚ) :
    ∀ (t : List SchoolRecord) (h : SchoolRecord),
      find_closest_school geoKm lat lng (h :: t)
        = (h :: t).find? (fun s => sDist geoKm lat lng s == minDistFrom geoKm lat lng h t)
  | [], h => by
    simp [find_closest_school, fcsLoop, minDistFrom, sDist]
  | s :: t', h => by
    have hds : sDist geoKm lat lng s = geoKm (lat, lng) (s.geo_lat, s.geo_lon) := rfl
    have hdh : sDist geoKm lat lng h = geoKm (lat, lng) (h.geo_lat, h.geo_lon) := rfl
    have hunf : find_closest_school geoKm lat lng (h :: s :: t')
        = (if geoKm (lat, lng) (s.geo_lat, s.geo_lon) < geoKm (lat, lng) (h.geo_lat, h.geo_lon)
            then fcsLoop geoKm lat lng t'
              (some (geoKm (lat, lng) (s.geo_lat, s.geo_lon), s))
            else fcsLoop geoKm lat lng t'
              (some (geoKm (lat, lng) (h.geo_lat, h.geo_lon), h))).map (fun p => p.2) := rfl
    have hmin : minDistFrom geoKm lat lng h (s :: t')
        = (t'.map (sDist geoKm lat lng)).foldl min
            (min (sDist geoKm lat lng h) (sDist geoKm lat lng s)) := rfl
    by_cases hlt : geoKm (lat, lng) (s.geo_lat, s.geo_lon) < geoKm (lat, lng) (h.geo_lat, h.geo_lon)
    · rw [hunf, if_pos hlt]
      have hrec : (fcsLoop geoKm lat lng t'
            (some (geoKm (lat, lng) (s.geo_lat, s.geo_lon), s))).map (fun p => p.2)
          = find_closest_school geoKm lat lng (s :: t') := rfl
      rw [hrec, find_closest_school_cons geoKm lat lng t' s]
      have hmeq : minDistFrom geoKm lat lng h (s :: t') = minDistFrom geoKm lat lng s t' := by
        rw [hmin, minDistFrom, min_eq_right (le_of_lt (by rw [hds, hdh]; exact hlt))]
      have hM_le : minDistFrom geoKm lat lng s t' ≤ sDist geoKm lat lng s :=
        foldl_min_le_init _ _
      have hlt' : sDist geoKm lat lng s < sDist geoKm lat lng h := hlt
      have hhne : ¬ ((fun x => sDist geoKm lat lng x
          == minDistFrom geoKm lat lng h (s :: t')) h) = true := by
        simp only [beq_iff_eq, hmeq]
        intro heq
        have habs : minDistFrom geoKm lat lng s t' < minDistFrom geoKm lat lng s t' := by
          calc minDistFrom geoKm lat lng s t' ≤ sDist geoKm lat lng s := hM_le
            _ < sDist geoKm lat lng h := hlt'
            _ = minDistFrom geoKm lat lng s t' := heq
        exact absurd habs (lt_irrefl _)
      have hstep : (h :: s :: t').find? (fun x => sDist geoKm lat lng x
            == minDistFrom geoKm lat lng h (s :: t'))
          = (s :: t').find? (fun x => sDist geoKm lat lng x
            == minDistFrom geoKm lat lng h (s :: t')) := List.find?_cons_of_neg _ hhne
      rw [hstep, hmeq]
    · rw [hunf, if_neg hlt]
      have hrec : (fcsLoop geoKm lat lng t'
            (some (geoKm (lat, lng) (h.geo_lat, h.geo_lon), h))).map (fun p => p.2)
          = find_closest_school geoKm lat lng (h :: t') := rfl
      rw [hrec, find_closest_school_cons geoKm lat lng t' h]
      have hmeq : minDistFrom geoKm lat lng h (s :: t') = minDistFrom geoKm lat lng h t' := by
        rw [hmin, minDistFrom, min_eq_left (by rw [hds, hdh]; exact le_of_not_lt hlt)]
      rw [hmeq]
      have hM_le : minDistFrom geoKm lat lng h t' ≤ sDist geoKm lat lng h :=
        foldl_min_le_init _ _
      by_cases hh : ((fun x => sDist geoKm lat lng x
          == minDistFrom geoKm lat lng h t') h) = true
      · have e1 : List.find? (fun x => sDist geoKm lat lng x
            == minDistFrom geoKm lat lng h t') (h :: t') = some h :=
          List.find?_cons_of_pos _ hh
        have e2 : List.find? (fun x => sDist geoKm lat lng x
            == minDistFrom geoKm lat lng h t') (h :: s :: t') = some h :=
          List.find?_cons_of_pos _ hh
        rw [e1, e2]
      · have hsne : ¬ ((fun x => sDist geoKm lat lng x
            == minDistFrom geoKm lat lng h t') s) = true := by
          simp only [beq_iff_eq]
          intro heq
          apply hh
          simp only [beq_iff_eq]
          have hds_ge : sDist geoKm lat lng h ≤ sDist geoKm lat lng s := by
            rw [hds, hdh]
            exact le_of_not_lt hlt
          have hle2 : sDist geoKm lat lng h ≤ minDistFrom geoKm lat lng h t' := by
            rw [heq] at hds_ge
            exact hds_ge
          exact le_antisymm hle2 hM_le
        have e1 : List.find? (fun x => sDist geoKm lat lng x
            == minDistFrom geoKm lat lng h t') (h :: t')
            = List.find? (fun x => sDist geoKm lat lng x
              == minDistFrom geoKm lat lng h t') t' :=
          List.find?_cons_of_neg _ hh
        have e2 : List.find? (fun x => sDist geoKm lat lng x
            == minDistFrom geoKm lat lng h t') (h :: s :: t')
            = List.find? (fun x => sDist geoKm lat lng x
              == minDistFrom geoKm lat lng h t') (s :: t') :=
          List.find?_cons_of_neg _ hh
        have e3 : List.find? (fun x => sDist geoKm lat lng x
            == minDistFrom geoKm lat lng h t') (s :: t')
            = List.find? (fun x => sDist geoKm lat lng x
              == minDistFrom geoKm lat lng h t') t' :=
          List.find?_cons_of_neg _ hsne
        rw [e1, e2, e3]

/-! ### Positions only advance in the regex engine

These lemmas show a successful match hands the continuation a position at
or beyond the start; instantiated on the street pattern (whose first two
atoms are `\b` and a digit) they show every street match is non-empty. -/

theorem orElse_some_eq {α : Type} (v : α) (f : Unit → Option α) :
    (some v).orElse f = some v := rfl

theorem orElse_none_eq {α : Type} (f : Unit → Option α) :
    (Option.none : Option α).orElse f = f () := rfl

theorem tryBack_ge {k : Nat → Option Nat} {pos r : Nat} :
    ∀ j, tryBack k pos j = some r → ∃ q, pos + 1 ≤ q ∧ k q = some r
  | 0 => by
    intro h
    cases h
  | j + 1 => by
    intro h
    rw [tryBack] at h
    cases hx : k (pos + j + 1) with
    | some v =>
      rw [hx, orElse_some_eq] at h
      exact ⟨pos + j + 1, by omega, by rw [hx, h]⟩
    | none =>
      rw [hx, orElse_none_eq] at h
      exact tryBack_ge j h

theorem tryBackIncl_ge {k : Nat → Option Nat} {pos r : Nat} :
    ∀ j, tryBackIncl k pos j = some r → ∃ q, pos ≤ q ∧ k q = some r
  | 0 => by
    intro h
    exact ⟨pos, le_refl pos, h⟩
  | j + 1 => by
    intro h
    rw [tryBackIncl] at h
    cases hx : k (pos + j + 1) with
    | some v =>
      rw [hx, orElse_some_eq] at h
      exact ⟨pos + j + 1, by omega, by rw [hx, h]⟩
    | none =>
      rw [hx, orElse_none_eq] at h
      exact tryBackIncl_ge j h

theorem matchAt_ge :
    ∀ (fuel : Nat) (re : RE) (cs : List Char) (pos : Nat) (k : Nat → Option Nat) (r : Nat),
      matchAt fuel re cs pos k = some r → ∃ q, pos ≤ q ∧ k q = some r := by
  intro fuel
  induction fuel with
  | zero =>
    intro re cs pos k r h
    cases h
  | succ fuel ih =>
    intro re cs pos k r h
    cases re with
    | eps => exact ⟨pos, le_refl pos, h⟩
    | cls p =>
      rw [matchAt] at h
      cases hc : cs.get? pos with
      | none => rw [hc] at h; cases h
      | some c =>
        rw [hc] at h
        have h2 : (if p c = true then k (pos + 1) else none) = some r := h
        by_cases hp : p c = true
        · rw [if_pos hp] at h2
          exact ⟨pos + 1, by omega, h2⟩
        · rw [if_neg hp] at h2
          cases h2
    | seq a b =>
      rw [matchAt] at h
      obtain ⟨q1, hq1, h1⟩ := ih a cs pos _ r h
      obtain ⟨q, hq, h2⟩ := ih b cs q1 k r h1
      exact ⟨q, le_trans hq1 hq, h2⟩
    | alt a b =>
      rw [matchAt] at h
      cases hx : matchAt fuel a cs pos k with
      | some v =>
        rw [hx, orElse_some_eq] at h
        exact ih a cs pos k r (by rw [hx, h])
      | none =>
        rw [hx, orElse_none_eq] at h
        exact ih b cs pos k r h
    | opt a =>
      rw [matchAt] at h
      cases hx : matchAt fuel a cs pos k with
      | some v =>
        rw [hx, orElse_some_eq] at h
        exact ih a cs pos k r (by rw [hx, h])
      | none =>
        rw [hx, orElse_none_eq] at h
        exact ⟨pos, le_refl pos, h⟩
    | plus p =>
      rw [matchAt] at h
      obtain ⟨q, hq, hk⟩ := tryBack_ge _ h
      exact ⟨q, by omega, hk⟩
    | star p =>
      rw [matchAt] at h
      exact tryBackIncl_ge _ h
    | rep a n =>
      cases n with
      | zero =>
        have h2 : k pos = some r := h
        exact ⟨pos, le_refl pos, h2⟩
      | succ n =>
        have h2 : (matchAt fuel a cs pos
            (fun p1 => matchAt fuel (.rep a n) cs p1 k)).orElse (fun _ => k pos)
            = some r := h
        cases hx : matchAt fuel a cs pos
            (fun p1 => matchAt fuel (.rep a n) cs p1 k) with
        | some v =>
          rw [hx, orElse_some_eq] at h2
          have h3 : matchAt fuel a cs pos
              (fun p1 => matchAt fuel (.rep a n) cs p1 k) = some r := by rw [hx, h2]
          obtain ⟨q1, hq1, h1⟩ := ih a cs pos _ r h3
          obtain ⟨q, hq, h4⟩ := ih (.rep a n) cs q1 k r h1
          exact ⟨q, le_trans hq1 hq, h4⟩
        | none =>
          rw [hx, orElse_none_eq] at h2
          exact ⟨pos, le_refl pos, h2⟩
    | wb =>
      rw [matchAt] at h
      by_cases hb : wordBoundary cs pos = true
      · rw [if_pos hb] at h
        exact ⟨pos, le_refl pos, h⟩
      · rw [if_neg hb] at h
        cases h

theorem searchAux_some (re : RE) (cs : List Char) :
    ∀ (start rem : Nat) (m : String), searchAux re cs start rem = some m →
      ∃ s e, matchAt 1000 re cs s some = some e ∧
        m = String.mk ((cs.drop s).take (e - s))
  | start, 0, m => by
    intro h
    cases hm : matchAt 1000 re cs start some with
    | some e =>
      simp only [searchAux, hm, Option.some.injEq] at h
      exact ⟨start, e, hm, h.symm⟩
    | none =>
      simp only [searchAux, hm] at h
      exact Option.noConfusion h
  | start, rem + 1, m => by
    intro h
    cases hm : matchAt 1000 re cs start some with
    | some e =>
      simp only [searchAux, hm, Option.some.injEq] at h
      exact ⟨start, e, hm, h.symm⟩
    | none =>
      simp only [searchAux, hm] at h
      exact searchAux_some re cs (start + 1) rem m h

theorem streetSearch_some_ne_empty {q m : String} (h : streetSearch q = some m) :
    m ≠ "" := by
  have h' : searchAux streetRE q.toList 0 q.toList.length = some m := h
  obtain ⟨s, e, hm, hmk⟩ := searchAux_some streetRE q.toList 0 q.toList.length m h'
  have hm2 : (if wordBoundary q.toList s = true
      then matchAt 999 (RE.seq reDigit streetAfterDigit) q.toList s some
      else none) = some e := hm
  by_cases hb : wordBoundary q.toList s = true
  · rw [if_pos hb] at hm2
    have hm4 : (match q.toList.get? s with
        | some c => if Char.isDigit c = true
            then matchAt 998 streetAfterDigit q.toList (s + 1) some
            else none
        | none => none) = some e := hm2
    cases hc : q.toList.get? s with
    | none =>
      rw [hc] at hm4
      exact Option.noConfusion hm4
    | some c =>
      rw [hc] at hm4
      have hm4' : (if Char.isDigit c = true
          then matchAt 998 streetAfterDigit q.toList (s + 1) some
          else none) = some e := hm4
      by_cases hd : Char.isDigit c = true
      · rw [if_pos hd] at hm4'
        obtain ⟨p', hp', hsome⟩ := matchAt_ge 998 streetAfterDigit q.toList (s + 1) some e hm4'
        have hpe : p' = e := by injection hsome
        have hse : s + 1 ≤ e := by omega
        have hlen : s < q.toList.length := by
          by_contra hge2
          rw [List.get?_eq_none.mpr (le_of_not_lt hge2)] at hc
          cases hc
        rw [hmk]
        intro habs
        have hdata : ((q.toList.drop s).take (e - s)) = [] := congrArg String.data habs
        have hlen2 := congrArg List.length hdata
        rw [List.length_take, List.length_drop] at hlen2
        simp only [List.length_nil] at hlen2
        omega
      · rw [if_neg hd] at hm4'
        exact Option.noConfusion hm4'
  · rw [if_neg hb] at hm2
    exact Option.noConfusion hm2

/-! ### Claim theorems -/

/-- C2: for every input candidate list, origin coordinate, and
allowed-category set, `filter_places` returns at most 5 entries, and the
`rank` fields are exactly the contiguous sequence `1..k` where `k` is the
output length. -/
theorem filter_places_len_le_five_ranks_contiguous
    (geo : ℚ × ℚ → ℚ × ℚ → ℚ) (places : List Place) (lat lng : ℚ) (allowed : List String) :
    (filter_places geo places lat lng allowed).length ≤ 5 ∧
    (filter_places geo places lat lng allowed).map (fun e => e.rank)
      = (List.range (filter_places geo places lat lng allowed).length).map
          (fun i : ℕ => (i : ℤ) + 1) := by
  constructor
  · show (assignRanks _).length ≤ 5
    rw [assignRanks_length, List.length_take]
    omega
  · show (assignRanks _).map _ = _
    rw [assignRanks_map_rank, show (filter_places geo places lat lng allowed).length
      = ((sortByDist (filteredEntries geo places lat lng allowed)).take 5).length
      from assignRanks_length _]

/-- C3: `filter_places` output is ascending in `distance_m` via a stable
sort (filtering by any fixed distance value commutes with the sort, i.e.
ties keep filter order), so an entry with strictly smaller `distance_m`
than another has strictly smaller `rank`. -/
theorem filter_places_sorted_stable
    (geo : ℚ × ℚ → ℚ × ℚ → ℚ) (places : List Place) (lat lng : ℚ) (allowed : List String) :
    (∀ (i j : ℕ) (hi : i < (filter_places geo places lat lng allowed).length)
        (hj : j < (filter_places geo places lat lng allowed).length),
        ((filter_places geo places lat lng allowed).get ⟨i, hi⟩).distance_m
            < ((filter_places geo places lat lng allowed).get ⟨j, hj⟩).distance_m →
        ((filter_places geo places lat lng allowed).get ⟨i, hi⟩).rank
            < ((filter_places geo places lat lng allowed).get ⟨j, hj⟩).rank) ∧
    (∀ d : ℤ, (sortByDist (filteredEntries geo places lat lng allowed)).filter
          (fun p => p.distance_m == d)
        = (filteredEntries geo places lat lng allowed).filter (fun p => p.distance_m == d)) := by
  constructor
  · intro i j hi hj hd
    have hlen : (filter_places geo places lat lng allowed).length
        = ((sortByDist (filteredEntries geo places lat lng allowed)).take 5).length :=
      assignRanks_length _
    have hij : i < j := by
      by_contra hle
      rcases Nat.lt_or_ge j i with hji | hge
      · have hpw := filter_places_pairwise_dist geo places lat lng allowed
        have := (List.pairwise_iff_get.mp hpw) ⟨j, hj⟩ ⟨i, hi⟩ hji
        omega
      · have : i = j := by omega
        subst this
        omega
    have hri : ((filter_places geo places lat lng allowed).get ⟨i, hi⟩).rank = (i : ℤ) + 1 := by
      show ((assignRanks ((sortByDist (filteredEntries geo places lat lng allowed)).take 5)).get
        ⟨i, hi⟩).rank = (i : ℤ) + 1
      rw [assignRanks_get _ _ _ (hlen ▸ hi)]
    have hrj : ((filter_places geo places lat lng allowed).get ⟨j, hj⟩).rank = (j : ℤ) + 1 := by
      show ((assignRanks ((sortByDist (filteredEntries geo places lat lng allowed)).take 5)).get
        ⟨j, hj⟩).rank = (j : ℤ) + 1
      rw [assignRanks_get _ _ _ (hlen ▸ hj)]
    rw [hri, hrj]
    omega
  · intro d
    exact sortByDist_filter_eq d (filteredEntries geo places lat lng allowed)

/-- C3 witness: under the latitude-as-distance oracle with candidates out
of order, the nearer entry (index 0 after sorting) gets the strictly
smaller rank. -/
theorem filter_places_sorted_stable_witness :
    ((filter_places latGeo [parkFar, parkNear] 0 0 ["park"]).get ⟨0, by decide⟩).rank
      < ((filter_places latGeo [parkFar, parkNear] 0 0 ["park"]).get ⟨1, by decide⟩).rank :=
  (filter_places_sorted_stable latGeo [parkFar, parkNear] 0 0 ["park"]).1
    0 1 (by decide) (by decide) (by decide)

/-- C4: no two `filter_places` entries share a name, and every entry's
payload comes from the first category-surviving candidate with that name
(later candidates with the same name are discarded regardless of
distance). -/
theorem filter_places_dedup_first_wins
    (geo : ℚ × ℚ → ℚ × ℚ → ℚ) (places : List Place) (lat lng : ℚ) (allowed : List String) :
    ((filter_places geo places lat lng allowed).map (fun e => e.name)).Nodup ∧
    ∀ e, e ∈ filter_places geo places lat lng allowed →
      ∃ p, (places.filter (typeAllowed allowed)).find? (fun c => c.name == e.name) = some p ∧
        e = { mkEntry geo lat lng p with rank := e.rank } := by
  constructor
  · have h0 := (filterLoop_names geo lat lng allowed places []).1
    have hperm : List.Perm ((sortByDist (filteredEntries geo places lat lng allowed)).map
        (fun e => e.name)) ((filteredEntries geo places lat lng allowed).map (fun e => e.name)) :=
      (sortByDist_perm _).map _
    have h1 : ((sortByDist (filteredEntries geo places lat lng allowed)).map
        (fun e => e.name)).Nodup := hperm.nodup_iff.mpr h0
    have h2 : (((sortByDist (filteredEntries geo places lat lng allowed)).take 5).map
        (fun e => e.name)).Nodup :=
      List.Nodup.sublist ((List.take_sublist 5 _).map _) h1
    have h3 : (filter_places geo places lat lng allowed).map (fun e => e.name)
        = ((sortByDist (filteredEntries geo places lat lng allowed)).take 5).map
          (fun e => e.name) :=
      assignRanks_map_field (fun e => e.name) (fun p r => rfl) _
    rw [h3]
    exact h2
  · intro e he
    exact mem_filter_places he

/-- C4 witness: with two same-name candidates of which the later is
closer, the output keeps the first occurrence's payload. -/
theorem filter_places_dedup_first_wins_witness :
    ∃ p, (([parkFar, parkDupNear] : List Place).filter (typeAllowed ["park"])).find?
        (fun c => c.name == dedupFirstEntry.name) = some p ∧
      dedupFirstEntry = { mkEntry latGeo 0 0 p with rank := dedupFirstEntry.rank } :=
  (filter_places_dedup_first_wins latGeo [parkFar, parkDupNear] 0 0 ["park"]).2
    dedupFirstEntry (List.get_mem _ _ _)

/-- C10: every `filter_places` entry is labelled `community_centre`
exactly when its source candidate's `types` contain `community_center`
and `park` otherwise, independently of the allowed-category set; in
particular a parks-filtered result can contain a `community_centre`
label. -/
theorem filter_places_type_label_from_types
    (geo : ℚ × ℚ → ℚ × ℚ → ℚ) (places : List Place) (lat lng : ℚ) (allowed : List String) :
    (∀ e, e ∈ filter_places geo places lat lng allowed →
      ∃ p, p ∈ places ∧ e.name = p.name ∧
        e.type = (if p.types.contains "community_center" then "community_centre" else "park")) ∧
    (filter_places constGeo [mixedTypesPlace] 0 0 ["park"]).map (fun e => e.type)
      = ["community_centre"] := by
  constructor
  · intro e he
    obtain ⟨p, hfind, hp⟩ := mem_filter_places he
    have hmem : p ∈ places.filter (typeAllowed allowed) := List.mem_of_find?_eq_some hfind
    refine ⟨p, (List.mem_filter.mp hmem).1, ?_, ?_⟩
    · rw [hp]
      rfl
    · rw [hp]
      rfl
  · decide

/-- C10 witness: the mixed-types candidate survives the parks-only filter
yet is labelled from its own `types`. -/
theorem filter_places_type_label_from_types_witness :
    ∃ p, p ∈ [mixedTypesPlace] ∧ mixedTypesEntry.name = p.name ∧
      mixedTypesEntry.type
        = (if p.types.contains "community_center" then "community_centre" else "park") :=
  (filter_places_type_label_from_types constGeo [mixedTypesPlace] 0 0 ["park"]).1
    mixedTypesEntry (List.get_mem _ _ _)

/-- C6 counterexample: at geodesic distance 100.9 m the code's
`int()`-truncated `distance_m` is 100, while rounding to the nearest
integer meter gives 101 — so `distance_m` is not the nearest-rounded
geodesic distance. -/
theorem distance_truncation_counterexample :
    fracDistEntry.distance_m = 100 ∧
    specRoundNearest ((1009 : ℚ) / 10) = 101 ∧ ¬ ((100 : ℤ) = 101) := by
  refine ⟨?_, ?_, by decide⟩
  · have h : fracDistEntry.distance_m = pyInt ((1009 : ℚ) / 10) := rfl
    rw [h, pyInt_of_nonneg _ (by norm_num)]
    norm_num
  · show round ((1009 : ℚ) / 10) = 101
    rw [round_eq]
    norm_num

/-- C6 amended: each entry's `distance_m` is the geodesic oracle value
truncated toward zero (`int()`, which is the floor on non-negative
values), and it is non-negative whenever the oracle is. -/
theorem distance_truncated_nonneg
    (geo : ℚ × ℚ → ℚ × ℚ → ℚ) (places : List Place) (lat lng : ℚ) (allowed : List String) :
    (∀ q : ℚ, 0 ≤ q → pyInt q = ⌊q⌋) ∧
    (∀ e, e ∈ filter_places geo places lat lng allowed →
      (∃ p, p ∈ places ∧ e.distance_m = pyInt (geo (lat, lng) (p.lat, p.lng))) ∧
      ((∀ a b, 0 ≤ geo a b) → 0 ≤ e.distance_m)) := by
  constructor
  · exact pyInt_of_nonneg
  · intro e he
    obtain ⟨p, hfind, hp⟩ := mem_filter_places he
    have hmem : p ∈ places.filter (typeAllowed allowed) := List.mem_of_find?_eq_some hfind
    have hdm : e.distance_m = pyInt (geo (lat, lng) (p.lat, p.lng)) := by
      rw [hp]
      rfl
    constructor
    · exact ⟨p, (List.mem_filter.mp hmem).1, hdm⟩
    · intro hgeo
      rw [hdm]
      exact pyInt_nonneg _ (hgeo _ _)

/-- C6 amended witness: under a constant non-negative oracle the single
entry's distance is the truncated oracle value and non-negative. -/
theorem distance_truncated_nonneg_witness :
    ((0 : ℚ) ≤ 2 ∧ pyInt 2 = ⌊(2 : ℚ)⌋) ∧
    (∃ p, p ∈ [mixedTypesPlace] ∧
      mixedTypesEntry.distance_m = pyInt (constGeo (0, 0) (p.lat, p.lng))) ∧
    0 ≤ mixedTypesEntry.distance_m := by
  have h := distance_truncated_nonneg constGeo [mixedTypesPlace] 0 0 ["park"]
  have h2 := h.2 mixedTypesEntry (List.get_mem _ _ _)
  exact ⟨⟨by norm_num, h.1 2 (by norm_num)⟩, h2.1,
    h2.2 (fun a b => by norm_num [constGeo])⟩

/-- C7: the walking-time computation is floor division of the integer
distance by the constant 80 m/min; in particular 159 ↦ 1, 80 ↦ 1 and
79 ↦ 0. -/
theorem walking_minutes_floor_div :
    (∀ d : ℤ, 0 ≤ d → walking_minutes d = d / 80) ∧
    walking_minutes 159 = 1 ∧ walking_minutes 80 = 1 ∧ walking_minutes 79 = 0 := by
  refine ⟨walking_minutes_eq_div, ?_, ?_, ?_⟩
  · rw [walking_minutes_eq_div 159 (by decide)]
    decide
  · rw [walking_minutes_eq_div 80 (by decide)]
    decide
  · rw [walking_minutes_eq_div 79 (by decide)]
    decide

/-- C7 witness: the floor-division formula applied at 159. -/
theorem walking_minutes_floor_div_witness :
    (0 : ℤ) ≤ 159 ∧ walking_minutes 159 = 159 / 80 :=
  ⟨by decide, walking_minutes_floor_div.1 159 (by decide)⟩

/-- C8: `find_closest_school` returns `none` exactly on the empty list;
on `h :: t` it returns the first record attaining the minimum oracle
distance (ties by input order); and on a single record it returns that
record, whose distance is non-negative whenever the oracle is. -/
theorem find_closest_school_first_min
    (geoKm : ℚ × ℚ → ℚ × ℚ → ℚ) (lat lng : ℚ) (schools : List SchoolRecord) :
    (find_closest_school geoKm lat lng schools = none ↔ schools = []) ∧
    (∀ h t, schools = h :: t →
      find_closest_school geoKm lat lng schools
        = schools.find? (fun s => sDist geoKm lat lng s == minDistFrom geoKm lat lng h t)) ∧
    (∀ s0, find_closest_school geoKm lat lng [s0] = some s0 ∧
      ((∀ a b, 0 ≤ geoKm a b) → 0 ≤ sDist geoKm lat lng s0)) := by
  refine ⟨?_, ?_, ?_⟩
  · cases schools with
    | nil => simp [find_closest_school, fcsLoop]
    | cons h t =>
      constructor
      · intro habs
        obtain ⟨r, hr⟩ := fcsLoop_isSome geoKm lat lng t
          (geoKm (lat, lng) (h.geo_lat, h.geo_lon), h)
        have hunf : find_closest_school geoKm lat lng (h :: t)
            = (fcsLoop geoKm lat lng t
              (some (geoKm (lat, lng) (h.geo_lat, h.geo_lon), h))).map (fun p => p.2) := rfl
        rw [hunf, hr] at habs
        cases habs
      · intro habs
        cases habs
  · intro h t heq
    subst heq
    exact find_closest_school_cons geoKm lat lng t h
  · intro s0
    constructor
    · rfl
    · intro hgeo
      exact hgeo _ _

/-- C8 witness: on two records with oracle distances 7 and 3 the second
(unique minimum) is found, matching the first-minimum `find?`
characterization; a singleton returns its record with non-negative
distance under a non-negative oracle. -/
theorem find_closest_school_first_min_witness :
    (find_closest_school latGeo 0 0 [schoolA, schoolB]
      = ([schoolA, schoolB] : List SchoolRecord).find?
          (fun s => sDist latGeo 0 0 s == minDistFrom latGeo 0 0 schoolA [schoolB])) ∧
    find_closest_school constGeo 0 0 [schoolA] = some schoolA ∧
    0 ≤ sDist constGeo 0 0 schoolA := by
  have h1 := (find_closest_school_first_min latGeo 0 0 [schoolA, schoolB]).2.1
    schoolA [schoolB] rfl
  have h2 := (find_closest_school_first_min constGeo 0 0 [schoolA]).2.2 schoolA
  exact ⟨h1, h2.1, h2.2 (fun a b => by norm_num [constGeo])⟩

/-- C5: `regex_extract_address` is an ordered, short-circuiting chain —
street regex, then postal regex, then city gazetteer, then intersection
regex — and `extract_address_from_query` consults the LLM collaborator
only when the whole chain yields the empty string; whenever the street
regex matches, its (non-empty) first match is the result for every LLM
collaborator. -/
theorem extraction_chain_short_circuits (q : String) :
    (∀ m, streetSearch q = some m →
      regex_extract_address q = m ∧ m ≠ "" ∧
      ∀ llm, extract_address_from_query llm q = m) ∧
    (streetSearch q = none → ∀ m, postalSearch q = some m → regex_extract_address q = m) ∧
    (streetSearch q = none → postalSearch q = none →
      ∀ c, findCity q = some c → regex_extract_address q = c) ∧
    (streetSearch q = none → postalSearch q = none → findCity q = none →
      ∀ m, intersectionSearch q = some m → regex_extract_address q = m) ∧
    (streetSearch q = none → postalSearch q = none → findCity q = none →
      intersectionSearch q = none →
      regex_extract_address q = "" ∧
      ∀ llm, extract_address_from_query llm q = pyStrip (llm q)) := by
  refine ⟨?_, ?_, ?_, ?_, ?_⟩
  · intro m h1
    have hne : m ≠ "" := streetSearch_some_ne_empty h1
    have hre : regex_extract_address q = m := by
      rw [regex_extract_address, h1]
    refine ⟨hre, hne, ?_⟩
    intro llm
    rw [extract_address_from_query]
    simp only [hre]
    rw [if_pos hne]
  · intro h1 m h2
    rw [regex_extract_address, h1, h2]
  · intro h1 h2 c h3
    rw [regex_extract_address, h1, h2, h3]
  · intro h1 h2 h3 m h4
    rw [regex_extract_address, h1, h2, h3, h4]
  · intro h1 h2 h3 h4
    have hre : regex_extract_address q = "" := by
      rw [regex_extract_address, h1, h2, h3, h4]
    refine ⟨hre, ?_⟩
    intro llm
    rw [extract_address_from_query]
    simp only [hre]
    rw [if_neg (by simp)]

/-- C5 witness: on `"123 Main St Vancouver"` the street regex matches
the whole string, the chain returns it, and the result is the same for
an arbitrary LLM stub (the collaborator is not consulted). -/
theorem extraction_chain_short_circuits_witness :
    streetSearch "123 Main St Vancouver" = some "123 Main St Vancouver" ∧
    regex_extract_address "123 Main St Vancouver" = "123 Main St Vancouver" ∧
    extract_address_from_query (fun _ => "llm stub answer") "123 Main St Vancouver"
      = "123 Main St Vancouver" := by
  have hs : streetSearch "123 Main St Vancouver" = some "123 Main St Vancouver" := by decide
  have h := (extraction_chain_short_circuits "123 Main St Vancouver").1
    "123 Main St Vancouver" hs
  exact ⟨hs, h.1, h.2.2 (fun _ => "llm stub answer")⟩

/-- C9: when neither the street nor the postal stage matches and the text
contains `West Vancouver` or `North Vancouver` case-insensitively, the
gazetteer stage returns `Vancouver` — the first `BC_CITIES` entry, a
substring of both longer names. -/
theorem city_stage_returns_vancouver (q : String)
    (h1 : streetSearch q = none) (h2 : postalSearch q = none)
    (h3 : pyInStr (lowerStr "West Vancouver") (lowerStr q) = true ∨
      pyInStr (lowerStr "North Vancouver") (lowerStr q) = true) :
    regex_extract_address q = "Vancouver" := by
  have hvan : pyInStr (lowerStr "Vancouver") (lowerStr q) = true := by
    rcases h3 with h | h
    · rw [pyInStr] at h ⊢
      have hw : (lowerStr "West Vancouver").toList
          = "west ".toList ++ "vancouver".toList := by decide
      have hv : (lowerStr "Vancouver").toList = "vancouver".toList := by decide
      rw [hw] at h
      rw [hv]
      exact listContains_of_append _ _ _ h
    · rw [pyInStr] at h ⊢
      have hw : (lowerStr "North Vancouver").toList
          = "north ".toList ++ "vancouver".toList := by decide
      have hv : (lowerStr "Vancouver").toList = "vancouver".toList := by decide
      rw [hw] at h
      rw [hv]
      exact listContains_of_append _ _ _ h
  have hcity : findCity q = some "Vancouver" := by
    rw [findCity, BC_CITIES]
    exact List.find?_cons_of_pos _ hvan
  rw [regex_extract_address, h1, h2, hcity]

/-- C9 witness: the query `"homes in West Vancouver"` has no street or
postal match, contains `West Vancouver`, and extraction returns
`Vancouver`. -/
theorem city_stage_returns_vancouver_witness :
    regex_extract_address "homes in West Vancouver" = "Vancouver" :=
  city_stage_returns_vancouver "homes in West Vancouver" (by decide) (by decide)
    (Or.inl (by decide))

/-- C1: on a query whose address extraction yields the empty string (no
regex/gazetteer match and an LLM extractor answering `""`), with the
intent classified as `schools`, `determine_api_action` does not return an
"address not found" envelope: it dispatches to the schools endpoint with
the empty address, the geocoding collaborator is consulted on `""` (the
routing outcome depends on its answer), and the resulting envelope is the
schools 404 error (geocoding failed) or a schools result (geocoding
succeeded). -/
theorem router_no_empty_address_check :
    regex_extract_address "asdfqwerty" = "" ∧
    extract_address_from_query extractionFailExt.llmAddr "asdfqwerty" = "" ∧
    determine_api_action extractionFailExt "asdfqwerty"
      = Envelope.errorMsg "404: Unable to retrieve nearby schools." ∧
    determine_api_action extractionFailExtGeoOk "asdfqwerty"
      = Envelope.schools [("Main Street Elementary", some "123 Main St")] ∧
    ¬ determine_api_action extractionFailExt "asdfqwerty"
      = determine_api_action extractionFailExtGeoOk "asdfqwerty" := by
  refine ⟨by decide, by decide, by decide, by decide, by decide⟩
